import Mathlib

/-!
Verification of the arbitrage engine's core logic: a shallow embedding of the
scan/detection/dispatch/execution modules (`src/arbitrage/index.js`,
`src/utils/errors.js`, `src/exchanges/index.js`) with prices modelled as
rationals, JavaScript exceptions as `Except`, and time as natural-number
milliseconds.
-/

namespace Arb

/-- JavaScript's `String.prototype.includes`, used by the source's
retry predicates to classify errors by message substring. -/
def jsIncludes (s sub : String) : Bool :=
  decide (sub.toList <:+: s.toList)

/-- A JavaScript price-data record produced by `scanPairAcrossExchanges`
for one exchange (the `exchangeObj` reference and `symbol`/`timestamp`
fields carry no detection logic and are dropped). -/
structure PriceData where
  exchange : String
  bestBid : ℚ
  bestAsk : ℚ
deriving DecidableEq, Repr

/-- The `opportunity` record built by `findAndExecuteArbitrageOpportunity`
(the human-readable ISO `timestamp` string is dropped, `scanTimestamp` kept). -/
structure Opportunity where
  symbol : String
  buyExchange : String
  sellExchange : String
  buyPrice : ℚ
  sellPrice : ℚ
  priceDifference : ℚ
  percentageDifference : ℚ
  potentialProfit : ℚ
  scanTimestamp : Nat
deriving DecidableEq, Repr

/-- The source's first comparator `(a, b) => b.bestBid - a.bestBid`
(descending best bid), as the total preorder used by the stable sort. -/
def bidDescLE (a b : PriceData) : Bool := decide (b.bestBid ≤ a.bestBid)

/-- The source's second comparator `(a, b) => a.bestAsk - b.bestAsk`
(ascending best ask). -/
def askAscLE (a b : PriceData) : Bool := decide (a.bestAsk ≤ b.bestAsk)

/-- The detection part of `findAndExecuteArbitrageOpportunity`
(`src/arbitrage/index.js` lines 354-401).  JavaScript's in-place
`Array.prototype.sort` is stable, so the second sort re-sorts the already
bid-sorted array; both are modelled by `List.mergeSort`, which is stable. -/
def findArbitrageOpportunity (threshold tradeAmount : ℚ) (symbol : String)
    (now : Nat) (priceData : List PriceData) : Option Opportunity :=
  let sorted1 := priceData.mergeSort bidDescLE
  let sorted2 := sorted1.mergeSort askAscLE
  match sorted1, sorted2 with
  | highestBid :: _, lowestAsk :: _ =>
    if highestBid.exchange = lowestAsk.exchange then none
    else
      let priceDiff := highestBid.bestBid - lowestAsk.bestAsk
      let percentageDiff := priceDiff / lowestAsk.bestAsk * 100
      if percentageDiff ≤ threshold then none
      else if priceDiff ≤ 0 ∨ percentageDiff ≤ 0 then none
      else
        some {
          symbol := symbol
          buyExchange := lowestAsk.exchange
          sellExchange := highestBid.exchange
          buyPrice := lowestAsk.bestAsk
          sellPrice := highestBid.bestBid
          priceDifference := priceDiff
          percentageDifference := percentageDiff
          potentialProfit := priceDiff * (tradeAmount / lowestAsk.bestAsk)
          scanTimestamp := now }
  | _, _ => none

/-- Quote set of spec Scenario A: V1 bid 100 / ask 100.2, V2 bid 101.5 / ask 101.8. -/
def scenarioA : List PriceData :=
  [⟨"V1", 100, 501/5⟩, ⟨"V2", 203/2, 509/5⟩]

/-- The opportunity the engine detects on Scenario A at threshold 0.5%,
trade amount 100: buy on V1 at 100.2, sell on V2 at 101.5, pct = 650/501 ≈ 1.30%. -/
def scenarioAOpp : Opportunity :=
  { symbol := "BTC/USDT", buyExchange := "V1", sellExchange := "V2",
    buyPrice := 501/5, sellPrice := 203/2, priceDifference := 13/10,
    percentageDifference := 650/501, potentialProfit := 650/501, scanTimestamp := 0 }

theorem findArbitrageOpportunity_scenarioA :
    findArbitrageOpportunity (1/2) 100 "BTC/USDT" 0 scenarioA = some scenarioAOpp := by
  norm_num [findArbitrageOpportunity, scenarioA, scenarioAOpp, bidDescLE, askAscLE,
    List.mergeSort, List.splitInTwo, List.merge]
  decide

/-- C1: for every quote set, the detector never produces an opportunity whose
buy exchange equals its sell exchange: whenever the maximum-bid quote and the
minimum-ask quote come from the same exchange, it returns none. -/
theorem detector_no_self_arbitrage (threshold tradeAmount : ℚ) (symbol : String)
    (now : Nat) (priceData : List PriceData) (opp : Opportunity)
    (h : findArbitrageOpportunity threshold tradeAmount symbol now priceData = some opp) :
    opp.buyExchange ≠ opp.sellExchange := by
  simp only [findArbitrageOpportunity] at h
  rcases hs1 : priceData.mergeSort bidDescLE with _ | ⟨hb, t1⟩
  · rw [hs1] at h
    simp at h
  rw [hs1] at h
  rcases hs2 : (hb :: t1).mergeSort askAscLE with _ | ⟨la, t2⟩
  · exact absurd (congrArg List.length hs2) (by simp)
  rw [hs2] at h
  dsimp only at h
  split_ifs at h with hEq hTh hPos
  cases h
  exact fun hba => hEq (hba.symm)

/-- Witness for C1 at the Scenario A quote set. -/
theorem detector_no_self_arbitrage_witness :
    scenarioAOpp.buyExchange ≠ scenarioAOpp.sellExchange :=
  detector_no_self_arbitrage (1/2) 100 "BTC/USDT" 0 scenarioA scenarioAOpp
    findArbitrageOpportunity_scenarioA

/-- C2: every opportunity the detector produces has
`percentageDifference = (sellPrice - buyPrice) / buyPrice * 100`, this value
strictly exceeds the configured threshold, and `sellPrice > buyPrice`
(so none is produced when the spread is non-positive or the percentage
difference is at most the threshold). -/
theorem detector_threshold_sound (threshold tradeAmount : ℚ) (symbol : String)
    (now : Nat) (priceData : List PriceData) (opp : Opportunity)
    (h : findArbitrageOpportunity threshold tradeAmount symbol now priceData = some opp) :
    opp.percentageDifference = (opp.sellPrice - opp.buyPrice) / opp.buyPrice * 100 ∧
    threshold < opp.percentageDifference ∧
    opp.buyPrice < opp.sellPrice := by
  simp only [findArbitrageOpportunity] at h
  rcases hs1 : priceData.mergeSort bidDescLE with _ | ⟨hb, t1⟩
  · rw [hs1] at h
    simp at h
  rw [hs1] at h
  rcases hs2 : (hb :: t1).mergeSort askAscLE with _ | ⟨la, t2⟩
  · exact absurd (congrArg List.length hs2) (by simp)
  rw [hs2] at h
  dsimp only at h
  split_ifs at h with hEq hTh hPos
  push_neg at hTh hPos
  cases h
  refine ⟨rfl, hTh, ?_⟩
  have := hPos.1
  simpa [sub_pos] using this

/-- Witness for C2 at the Scenario A quote set. -/
theorem detector_threshold_sound_witness :
    scenarioAOpp.percentageDifference =
      (scenarioAOpp.sellPrice - scenarioAOpp.buyPrice) / scenarioAOpp.buyPrice * 100 ∧
    (1/2 : ℚ) < scenarioAOpp.percentageDifference ∧
    scenarioAOpp.buyPrice < scenarioAOpp.sellPrice :=
  detector_threshold_sound (1/2) 100 "BTC/USDT" 0 scenarioA scenarioAOpp
    findArbitrageOpportunity_scenarioA

/-- The first element of `l` that is `le`-below every element of `l`, ties
resolved in favour of the earlier element; for a transitive total `le` this is
the head a stable sort produces (`head?_mergeSort`). -/
def firstMinBy {α : Type _} (le : α → α → Bool) : List α → Option α
  | [] => none
  | x :: xs =>
    match firstMinBy le xs with
    | none => some x
    | some y => if le x y then some x else some y

theorem firstMinBy_eq_none {α : Type _} {le : α → α → Bool} {l : List α} :
    firstMinBy le l = none ↔ l = [] := by
  cases l with
  | nil => simp [firstMinBy]
  | cons a l =>
    simp only [firstMinBy]
    cases hm : firstMinBy le l with
    | none => simp
    | some m => by_cases hle : le a m <;> simp [hle]

theorem firstMinBy_mem {α : Type _} {le : α → α → Bool} :
    ∀ {l : List α} {x : α}, firstMinBy le l = some x → x ∈ l := by
  intro l
  induction l with
  | nil => intro x h; exact Option.noConfusion h
  | cons a l ih =>
    intro x h
    simp only [firstMinBy] at h
    cases hm : firstMinBy le l with
    | none =>
      simp only [hm] at h
      injection h with hax
      rw [← hax]
      exact List.mem_cons_self a l
    | some m =>
      simp only [hm] at h
      by_cases hle : le a m
      · rw [if_pos hle] at h
        injection h with hax
        rw [← hax]
        exact List.mem_cons_self a l
      · rw [if_neg hle] at h
        injection h with hmx
        rw [← hmx]
        exact List.mem_cons_of_mem a (ih hm)

theorem firstMinBy_le {α : Type _} {le : α → α → Bool}
    (trans : ∀ (a b c : α), le a b → le b c → le a c)
    (total : ∀ (a b : α), le a b || le b a) :
    ∀ {l : List α} {x : α}, firstMinBy le l = some x → ∀ y ∈ l, le x y := by
  have hrefl : ∀ z : α, le z z := by
    intro z
    rcases Bool.or_eq_true_iff.mp (total z z) with h' | h' <;> exact h'
  intro l
  induction l with
  | nil => intro x h; exact Option.noConfusion h
  | cons a l ih =>
    intro x h y hy
    simp only [firstMinBy] at h
    cases hm : firstMinBy le l with
    | none =>
      simp only [hm] at h
      injection h with hax
      rw [← hax]
      have hl : l = [] := firstMinBy_eq_none.mp hm
      subst hl
      rcases List.mem_singleton.mp hy with rfl
      exact hrefl _
    | some m =>
      simp only [hm] at h
      by_cases hle : le a m
      · rw [if_pos hle] at h
        injection h with hax
        rw [← hax]
        rcases List.mem_cons.mp hy with rfl | hy'
        · exact hrefl _
        · exact trans _ m y hle (ih hm y hy')
      · rw [if_neg hle] at h
        injection h with hmx
        rw [← hmx]
        rcases List.mem_cons.mp hy with rfl | hy'
        · rcases Bool.or_eq_true_iff.mp (total y m) with h' | h'
          · exact absurd h' hle
          · exact h'
        · exact ih hm y hy'

theorem firstMinBy_first {α : Type _} {le : α → α → Bool} :
    ∀ {l : List α} {x : α}, firstMinBy le l = some x →
      ∃ l₁ l₂, l = l₁ ++ x :: l₂ ∧ ∀ y ∈ l₁, le y x = false := by
  intro l
  induction l with
  | nil => intro x h; exact Option.noConfusion h
  | cons a l ih =>
    intro x h
    simp only [firstMinBy] at h
    cases hm : firstMinBy le l with
    | none =>
      simp only [hm] at h
      injection h with hax
      rw [← hax]
      exact ⟨[], l, rfl, by simp⟩
    | some m =>
      simp only [hm] at h
      by_cases hle : le a m
      · rw [if_pos hle] at h
        injection h with hax
        rw [← hax]
        exact ⟨[], l, rfl, by simp⟩
      · rw [if_neg hle] at h
        injection h with hmx
        obtain ⟨l₁, l₂, hdec, hl₁⟩ := ih hm
        refine ⟨a :: l₁, l₂, by rw [hdec, ← hmx]; simp, ?_⟩
        intro y hy
        rcases List.mem_cons.mp hy with rfl | hy'
        · rw [← hmx]
          exact Bool.eq_false_iff.mpr hle
        · rw [← hmx]
          exact hl₁ y hy'

/-- The head of the stable sort of `l` is the first-encountered `le`-minimal
element of `l`. -/
theorem head?_mergeSort {α : Type _} {le : α → α → Bool}
    (trans : ∀ (a b c : α), le a b → le b c → le a c)
    (total : ∀ (a b : α), le a b || le b a) :
    ∀ (l : List α), (l.mergeSort le).head? = firstMinBy le l := by
  intro l
  induction l with
  | nil => simp [firstMinBy]
  | cons a l ih =>
    obtain ⟨l₁, l₂, h₁, h₂, h₃⟩ := List.mergeSort_cons trans total a l
    cases hl₁ : l₁ with
    | nil =>
      subst hl₁
      simp only [List.nil_append] at h₁ h₂
      rw [h₁]
      cases hl₂ : l₂ with
      | nil =>
        have hl : l = [] := by
          have hlen : (l.mergeSort le).length = l.length := by simp
          rw [h₂, hl₂] at hlen
          exact List.length_eq_zero.mp hlen.symm
        subst hl
        simp [firstMinBy]
      | cons m l₂' =>
        have hfm : firstMinBy le l = some m := by
          rw [← ih, h₂, hl₂]; rfl
        have hsorted := List.sorted_mergeSort trans total (a :: l)
        rw [h₁, hl₂] at hsorted
        have ham : le a m := (List.pairwise_cons.mp hsorted).1 m (List.mem_cons_self m l₂')
        simp only [firstMinBy, hfm, List.head?_cons, hl₂]
        rw [if_pos ham]
    | cons b l₁' =>
      subst hl₁
      rw [h₁]
      have hfm : firstMinBy le l = some b := by
        rw [← ih, h₂]; rfl
      have hab : le a b = false := by
        have := h₃ b (List.mem_cons_self b l₁')
        simpa using this
      simp only [firstMinBy, hfm, List.cons_append, List.head?_cons]
      rw [if_neg (by simp [hab])]

theorem bidDescLE_trans : ∀ (a b c : PriceData),
    bidDescLE a b → bidDescLE b c → bidDescLE a c := by
  intro a b c hab hbc
  simp only [bidDescLE, decide_eq_true_eq] at *
  exact le_trans hbc hab

theorem bidDescLE_total : ∀ (a b : PriceData), bidDescLE a b || bidDescLE b a := by
  intro a b
  simp only [bidDescLE, Bool.or_eq_true, decide_eq_true_eq]
  exact le_total b.bestBid a.bestBid

theorem askAscLE_trans : ∀ (a b c : PriceData),
    askAscLE a b → askAscLE b c → askAscLE a c := by
  intro a b c hab hbc
  simp only [askAscLE, decide_eq_true_eq] at *
  exact le_trans hab hbc

theorem askAscLE_total : ∀ (a b : PriceData), askAscLE a b || askAscLE b a := by
  intro a b
  simp only [askAscLE, Bool.or_eq_true, decide_eq_true_eq]
  exact le_total a.bestAsk b.bestAsk

/-- Quote set with a minimum-ask tie: A and B both quote ask 20 (A first in
input order, B with the higher bid); C holds the maximum bid. -/
def tiePriceData : List PriceData := [⟨"A", 10, 20⟩, ⟨"B", 11, 20⟩, ⟨"C", 30, 40⟩]

/-- What the engine detects on `tiePriceData` at threshold 0.5%, amount 100. -/
def tieOpp : Opportunity :=
  { symbol := "BTC/USDT", buyExchange := "B", sellExchange := "C",
    buyPrice := 20, sellPrice := 30, priceDifference := 10,
    percentageDifference := 50, potentialProfit := 50, scanTimestamp := 0 }

theorem findArbitrageOpportunity_tie :
    findArbitrageOpportunity (1/2) 100 "BTC/USDT" 0 tiePriceData = some tieOpp := by
  norm_num [findArbitrageOpportunity, tiePriceData, tieOpp, bidDescLE, askAscLE,
    List.mergeSort, List.splitInTwo, List.merge]
  decide

/-- C8 counterexample: on `tiePriceData` the minimum ask (20) is shared by A
and B with A first in input order, yet the detector chooses B as the buy
venue, because the ask sort runs on the bid-descending pre-sorted array
rather than on the input order. -/
theorem detector_tiebreak_counterexample :
    (findArbitrageOpportunity (1/2) 100 "BTC/USDT" 0 tiePriceData).map
        (fun o => o.buyExchange) = some "B" ∧
    tiePriceData.head? = some ⟨"A", 10, 20⟩ ∧
    (∀ y ∈ tiePriceData, (20:ℚ) ≤ y.bestAsk) ∧
    ("B" : String) ≠ "A" := by
  refine ⟨by rw [findArbitrageOpportunity_tie]; rfl, by decide, by decide, by decide⟩

/-- C8 (amended): the detector's selection is deterministic in the quote set.
The sell venue is the first quote in input order holding the maximum bid.
The buy venue holds the minimum ask, but among minimum-ask ties the quote
with the maximal bid wins (a consequence of the second stable sort running
on the bid-descending-sorted array), not the first quote in input order. -/
theorem detector_tiebreak (threshold tradeAmount : ℚ) (symbol : String)
    (now : Nat) (priceData : List PriceData) (opp : Opportunity)
    (h : findArbitrageOpportunity threshold tradeAmount symbol now priceData = some opp) :
    (∃ l₁ x l₂, priceData = l₁ ++ x :: l₂ ∧
        opp.sellExchange = x.exchange ∧ opp.sellPrice = x.bestBid ∧
        (∀ y ∈ priceData, y.bestBid ≤ x.bestBid) ∧
        (∀ y ∈ l₁, y.bestBid < x.bestBid)) ∧
    (∃ x, x ∈ priceData ∧ opp.buyExchange = x.exchange ∧ opp.buyPrice = x.bestAsk ∧
        (∀ y ∈ priceData, x.bestAsk ≤ y.bestAsk) ∧
        (∀ y ∈ priceData, y.bestAsk = x.bestAsk → y.bestBid ≤ x.bestBid)) := by
  simp only [findArbitrageOpportunity] at h
  rcases hs1 : priceData.mergeSort bidDescLE with _ | ⟨hb, t1⟩
  · rw [hs1] at h
    simp at h
  rw [hs1] at h
  rcases hs2 : (hb :: t1).mergeSort askAscLE with _ | ⟨la, t2⟩
  · exact absurd (congrArg List.length hs2) (by simp)
  rw [hs2] at h
  dsimp only at h
  split_ifs at h with hEq hTh hPos
  cases h
  constructor
  · have hhead : firstMinBy bidDescLE priceData = some hb := by
      rw [← head?_mergeSort bidDescLE_trans bidDescLE_total, hs1]
      rfl
    obtain ⟨l₁, l₂, hdec, hstrict⟩ := firstMinBy_first hhead
    refine ⟨l₁, hb, l₂, hdec, rfl, rfl, ?_, ?_⟩
    · intro y hy
      have := firstMinBy_le bidDescLE_trans bidDescLE_total hhead y hy
      simpa [bidDescLE] using this
    · intro y hy
      have := hstrict y hy
      simp only [bidDescLE, decide_eq_false_iff_not, not_le] at this
      exact this
  · have hhead2 : firstMinBy askAscLE (hb :: t1) = some la := by
      rw [← head?_mergeSort askAscLE_trans askAscLE_total, hs2]
      rfl
    have hmemP : la ∈ priceData := by
      have h1 : la ∈ priceData.mergeSort bidDescLE := by
        rw [hs1]
        exact firstMinBy_mem hhead2
      exact List.mem_mergeSort.mp h1
    obtain ⟨m₁, m₂, hdec2, hstrict2⟩ := firstMinBy_first hhead2
    have hsorted : List.Pairwise (fun a b => bidDescLE a b = true) (m₁ ++ la :: m₂) := by
      have hp := List.sorted_mergeSort bidDescLE_trans bidDescLE_total priceData
      rw [hs1, hdec2] at hp
      exact hp
    refine ⟨la, hmemP, rfl, rfl, ?_, ?_⟩
    · intro y hyP
      have hy1 : y ∈ hb :: t1 := by
        have h1 : y ∈ priceData.mergeSort bidDescLE := List.mem_mergeSort.mpr hyP
        rw [hs1] at h1
        exact h1
      have := firstMinBy_le askAscLE_trans askAscLE_total hhead2 y hy1
      simpa [askAscLE] using this
    · intro y hyP hask
      have hy1 : y ∈ m₁ ++ la :: m₂ := by
        have h1 : y ∈ priceData.mergeSort bidDescLE := List.mem_mergeSort.mpr hyP
        rw [hs1, hdec2] at h1
        exact h1
      rcases List.mem_append.mp hy1 with hy₁ | hy₂
      · have := hstrict2 y hy₁
        simp only [askAscLE, decide_eq_false_iff_not, not_le] at this
        exact absurd hask.le (not_le.mpr this)
      · rcases List.mem_cons.mp hy₂ with rfl | hy₃
        · exact le_refl _
        · have hrel := (List.pairwise_append.mp hsorted).2.1
          have := List.rel_of_pairwise_cons hrel hy₃
          simpa [bidDescLE] using this

/-- Witness for the amended C8 at the `tiePriceData` quote set. -/
theorem detector_tiebreak_witness :
    (∃ l₁ x l₂, tiePriceData = l₁ ++ x :: l₂ ∧
        tieOpp.sellExchange = x.exchange ∧ tieOpp.sellPrice = x.bestBid ∧
        (∀ y ∈ tiePriceData, y.bestBid ≤ x.bestBid) ∧
        (∀ y ∈ l₁, y.bestBid < x.bestBid)) ∧
    (∃ x, x ∈ tiePriceData ∧ tieOpp.buyExchange = x.exchange ∧
        tieOpp.buyPrice = x.bestAsk ∧
        (∀ y ∈ tiePriceData, x.bestAsk ≤ y.bestAsk) ∧
        (∀ y ∈ tiePriceData, y.bestAsk = x.bestAsk → y.bestBid ≤ x.bestBid)) :=
  detector_tiebreak (1/2) 100 "BTC/USDT" 0 tiePriceData tieOpp
    findArbitrageOpportunity_tie

/-- The options object of `withRetry` (`src/utils/errors.js` lines 124-132);
the logging-only `context` field is dropped.  JS defaults: maxRetries 3,
baseDelay 1000, maxDelay 10000, backoffFactor 2, retryCondition always true. -/
structure RetryOptions (E : Type _) where
  maxRetries : Nat
  baseDelay : ℚ
  maxDelay : ℚ
  backoffFactor : ℚ
  retryCondition : E → Nat → Bool

/-- The delay the source computes after a failure of the 0-based attempt
`attempt`: `Math.min(baseDelay * Math.pow(backoffFactor, attempt), maxDelay)`. -/
def retryDelay {E : Type _} (o : RetryOptions E) (attempt : Nat) : ℚ :=
  min (o.baseDelay * o.backoffFactor ^ attempt) o.maxDelay

/-- The retry loop of `withRetry`, started at 0-based attempt index `attempt`.
The operation's behaviour is a pure function from the attempt index to its
outcome.  Returns the raised/returned result, the list of inter-attempt
delays that were slept (in order), and the number of operation invocations.
The source's loop-exit test `attempt === maxRetries` is modelled as
`o.maxRetries ≤ attempt`, equivalent on every reachable attempt index since
the loop counts up from 0. -/
def withRetryGo {E A : Type _} (op : Nat → Except E A) (o : RetryOptions E)
    (attempt : Nat) : Except E A × List ℚ × Nat :=
  match op attempt with
  | .ok a => (.ok a, [], 1)
  | .error e =>
    if h : o.maxRetries ≤ attempt ∨ o.retryCondition e attempt = false then
      (.error e, [], 1)
    else
      let rest := withRetryGo op o (attempt + 1)
      (rest.1, retryDelay o attempt :: rest.2.1, rest.2.2 + 1)
termination_by o.maxRetries - attempt
decreasing_by
  push_neg at h
  omega

/-- `withRetry(operation, options)` (`src/utils/errors.js` lines 124-168). -/
def withRetry {E A : Type _} (op : Nat → Except E A) (o : RetryOptions E) :
    Except E A × List ℚ × Nat :=
  withRetryGo op o 0

theorem withRetryGo_ok {E A : Type _} {op : Nat → Except E A}
    {o : RetryOptions E} {attempt : Nat} {a : A} (hop : op attempt = .ok a) :
    withRetryGo op o attempt = (.ok a, [], 1) := by
  rw [withRetryGo, hop]

theorem withRetryGo_stop {E A : Type _} {op : Nat → Except E A}
    {o : RetryOptions E} {attempt : Nat} {e : E} (hop : op attempt = .error e)
    (h : o.maxRetries ≤ attempt ∨ o.retryCondition e attempt = false) :
    withRetryGo op o attempt = (.error e, [], 1) := by
  rw [withRetryGo, hop]
  dsimp only
  rw [dif_pos h]

theorem withRetryGo_retry {E A : Type _} {op : Nat → Except E A}
    {o : RetryOptions E} {attempt : Nat} {e : E} (hop : op attempt = .error e)
    (h : ¬(o.maxRetries ≤ attempt ∨ o.retryCondition e attempt = false)) :
    withRetryGo op o attempt =
      ((withRetryGo op o (attempt + 1)).1,
        retryDelay o attempt :: (withRetryGo op o (attempt + 1)).2.1,
        (withRetryGo op o (attempt + 1)).2.2 + 1) := by
  rw [withRetryGo, hop]
  dsimp only
  rw [dif_neg h]

theorem withRetryGo_pos {E A : Type _} (op : Nat → Except E A)
    (o : RetryOptions E) (attempt : Nat) :
    1 ≤ (withRetryGo op o attempt).2.2 := by
  cases hop : op attempt with
  | ok a => rw [withRetryGo_ok hop]
  | error e =>
    by_cases h : o.maxRetries ≤ attempt ∨ o.retryCondition e attempt = false
    · rw [withRetryGo_stop hop h]
    · rw [withRetryGo_retry hop h]
      simp

theorem withRetryGo_invocations {E A : Type _} (op : Nat → Except E A)
    (o : RetryOptions E) : ∀ (attempt : Nat),
    (withRetryGo op o attempt).2.2 ≤ o.maxRetries - attempt + 1 := by
  intro attempt
  cases hop : op attempt with
  | ok a => rw [withRetryGo_ok hop]; simp
  | error e =>
    by_cases h : o.maxRetries ≤ attempt ∨ o.retryCondition e attempt = false
    · rw [withRetryGo_stop hop h]
      simp
    · rw [withRetryGo_retry hop h]
      push_neg at h
      have ih := withRetryGo_invocations op o (attempt + 1)
      simp only
      omega
termination_by attempt => o.maxRetries - attempt
decreasing_by omega

theorem withRetryGo_delays_length {E A : Type _} (op : Nat → Except E A)
    (o : RetryOptions E) : ∀ (attempt : Nat),
    (withRetryGo op o attempt).2.1.length = (withRetryGo op o attempt).2.2 - 1 := by
  intro attempt
  cases hop : op attempt with
  | ok a => rw [withRetryGo_ok hop]; simp
  | error e =>
    by_cases h : o.maxRetries ≤ attempt ∨ o.retryCondition e attempt = false
    · rw [withRetryGo_stop hop h]
      simp
    · rw [withRetryGo_retry hop h]
      have ih := withRetryGo_delays_length op o (attempt + 1)
      have hpos := withRetryGo_pos op o (attempt + 1)
      push_neg at h
      simp only [List.length_cons]
      omega
termination_by attempt => o.maxRetries - attempt
decreasing_by omega

theorem withRetryGo_delays_get {E A : Type _} (op : Nat → Except E A)
    (o : RetryOptions E) : ∀ (attempt : Nat) (i : Nat)
    (hi : i < (withRetryGo op o attempt).2.1.length),
    (withRetryGo op o attempt).2.1.get ⟨i, hi⟩ = retryDelay o (attempt + i) := by
  intro attempt i hi
  cases hop : op attempt with
  | ok a =>
    rw [withRetryGo_ok hop] at hi
    exact absurd hi (by simp)
  | error e =>
    by_cases h : o.maxRetries ≤ attempt ∨ o.retryCondition e attempt = false
    · rw [withRetryGo_stop hop h] at hi
      exact absurd hi (by simp)
    · have heq := withRetryGo_retry (o := o) hop h
      rcases i with _ | j
      · simp [heq]
      · have hi2 : j < (withRetryGo op o (attempt + 1)).2.1.length := by
          have := hi
          rw [heq] at this
          simpa using this
        have ih := withRetryGo_delays_get op o (attempt + 1) j hi2
        have harith : attempt + 1 + j = attempt + (j + 1) := by omega
        rw [harith] at ih
        rw [← ih]
        have hget : (withRetryGo op o attempt).2.1 =
            retryDelay o attempt :: (withRetryGo op o (attempt + 1)).2.1 := by
          rw [heq]
        simp only [List.get_eq_getElem] at ih ⊢
        simp [hget]
termination_by attempt _ _ => o.maxRetries - attempt
decreasing_by push_neg at h; omega

theorem withRetryGo_error {E A : Type _} (op : Nat → Except E A)
    (o : RetryOptions E) : ∀ (attempt : Nat) (e : E),
    (withRetryGo op o attempt).1 = .error e →
    op (attempt + ((withRetryGo op o attempt).2.2 - 1)) = .error e ∧
    (o.maxRetries ≤ attempt + ((withRetryGo op o attempt).2.2 - 1) ∨
      o.retryCondition e (attempt + ((withRetryGo op o attempt).2.2 - 1)) = false) := by
  intro attempt e her
  cases hop : op attempt with
  | ok a =>
    rw [withRetryGo_ok hop] at her
    exact absurd her (by simp)
  | error e' =>
    by_cases h : o.maxRetries ≤ attempt ∨ o.retryCondition e' attempt = false
    · have heq := withRetryGo_stop (o := o) hop h
      rw [heq] at her ⊢
      simp only at her
      cases her
      simpa using ⟨hop, h⟩
    · have heq := withRetryGo_retry (o := o) hop h
      rw [heq] at her ⊢
      simp only at her ⊢
      have ih := withRetryGo_error op o (attempt + 1) e her
      have hpos := withRetryGo_pos op o (attempt + 1)
      have harith : attempt + 1 + ((withRetryGo op o (attempt + 1)).2.2 - 1) =
          attempt + ((withRetryGo op o (attempt + 1)).2.2 + 1 - 1) := by omega
      rw [harith] at ih
      exact ih
termination_by attempt _ => o.maxRetries - attempt
decreasing_by push_neg at h; omega

/-- C3: `withRetry` invokes the operation at most `maxRetries + 1` times; the
delay slept before 0-based retry attempt `k` (the `k`-th delay, `k ≥ 1`)
equals `min(baseDelay * backoffFactor ^ (k-1), maxDelay)`; and when the run
raises an error, the error is the one produced by the final invocation, which
either exhausted the retries or failed the retry predicate, with no delay
slept after it (there are exactly `invocations - 1` delays). -/
theorem withRetry_spec {E A : Type _} (op : Nat → Except E A) (o : RetryOptions E) :
    (withRetry op o).2.2 ≤ o.maxRetries + 1 ∧
    (withRetry op o).2.1.length = (withRetry op o).2.2 - 1 ∧
    (∀ (i : Nat) (hi : i < (withRetry op o).2.1.length),
        (withRetry op o).2.1.get ⟨i, hi⟩ =
          min (o.baseDelay * o.backoffFactor ^ i) o.maxDelay) ∧
    (∀ e, (withRetry op o).1 = .error e →
        op ((withRetry op o).2.2 - 1) = .error e ∧
        ((withRetry op o).2.2 = o.maxRetries + 1 ∨
          o.retryCondition e ((withRetry op o).2.2 - 1) = false)) := by
  refine ⟨?_, ?_, ?_, ?_⟩
  · have := withRetryGo_invocations op o 0
    simpa [withRetry] using this
  · exact withRetryGo_delays_length op o 0
  · intro i hi
    have := withRetryGo_delays_get op o 0 i hi
    simpa [withRetry, retryDelay] using this
  · intro e her
    have h := withRetryGo_error op o 0 e her
    have hinv := withRetryGo_invocations op o 0
    have hpos := withRetryGo_pos op o 0
    simp only [withRetry, Nat.zero_add] at h ⊢
    refine ⟨h.1, ?_⟩
    rcases h.2 with hex | hpred
    · left
      omega
    · right
      exact hpred

/-- Witness for C3: an operation failing on its first two attempts and
succeeding on the third, run with `maxRetries = 3`, `baseDelay = 1000`,
`maxDelay = 3000`, `backoffFactor = 2`, predicate always true. -/
def retryWitnessOp : Nat → Except String Unit := fun attempt =>
  if attempt < 2 then .error "timeout" else .ok ()

def retryWitnessOptions : RetryOptions String :=
  { maxRetries := 3, baseDelay := 1000, maxDelay := 3000, backoffFactor := 2,
    retryCondition := fun _ _ => true }

theorem withRetry_spec_witness :
    (withRetry retryWitnessOp retryWitnessOptions).2.2 ≤
      retryWitnessOptions.maxRetries + 1 ∧
    (withRetry retryWitnessOp retryWitnessOptions).2.1.length =
      (withRetry retryWitnessOp retryWitnessOptions).2.2 - 1 ∧
    (∀ (i : Nat)
        (hi : i < (withRetry retryWitnessOp retryWitnessOptions).2.1.length),
        (withRetry retryWitnessOp retryWitnessOptions).2.1.get ⟨i, hi⟩ =
          min (retryWitnessOptions.baseDelay *
            retryWitnessOptions.backoffFactor ^ i) retryWitnessOptions.maxDelay) ∧
    (∀ e, (withRetry retryWitnessOp retryWitnessOptions).1 = .error e →
        retryWitnessOp ((withRetry retryWitnessOp retryWitnessOptions).2.2 - 1) =
          .error e ∧
        ((withRetry retryWitnessOp retryWitnessOptions).2.2 =
            retryWitnessOptions.maxRetries + 1 ∨
          retryWitnessOptions.retryCondition e
            ((withRetry retryWitnessOp retryWitnessOptions).2.2 - 1) = false)) :=
  withRetry_spec retryWitnessOp retryWitnessOptions

/-- Circuit-breaker modes (`src/utils/errors.js` line 59). -/
inductive CBMode
  | CLOSED
  | OPEN
  | HALF_OPEN
deriving DecidableEq, Repr

/-- The `CircuitBreaker` object (`src/utils/errors.js` lines 53-119).  The
logging-only `monitoringPeriod` and the unused `successCount` are dropped;
the `onStateChange` observer callback is modelled by returning the list of
mode-change events each call emits. -/
structure CircuitBreaker where
  failureThreshold : Nat
  resetTimeout : Nat
  state : CBMode
  failureCount : Nat
  lastFailureTime : Option Nat
deriving DecidableEq, Repr

/-- The constructor: state CLOSED, no failures recorded
(JS defaults: threshold 5, reset timeout 60000 ms). -/
def CircuitBreaker.init (failureThreshold resetTimeout : Nat) : CircuitBreaker :=
  { failureThreshold := failureThreshold, resetTimeout := resetTimeout,
    state := .CLOSED, failureCount := 0, lastFailureTime := none }

/-- `onSuccess`: reset the failure count; leave HALF_OPEN for CLOSED,
emitting the CLOSED event. -/
def CircuitBreaker.onSuccess (cb : CircuitBreaker) : CircuitBreaker × List CBMode :=
  if cb.state = .HALF_OPEN then
    ({ cb with failureCount := 0, state := .CLOSED }, [CBMode.CLOSED])
  else
    ({ cb with failureCount := 0 }, [])

/-- `onFailure` at time `now`: increment the failure count, record the
failure time; move to OPEN (emitting the OPEN event) once the count reaches
the threshold. -/
def CircuitBreaker.onFailure (cb : CircuitBreaker) (now : Nat) :
    CircuitBreaker × List CBMode :=
  if cb.failureThreshold ≤ cb.failureCount + 1 then
    ({ cb with
        failureCount := cb.failureCount + 1,
        lastFailureTime := some now,
        state := .OPEN }, [CBMode.OPEN])
  else
    ({ cb with
        failureCount := cb.failureCount + 1,
        lastFailureTime := some now }, [])

/-- Result of one `execute` call: `blocked` is the fast-fail path throwing
the distinguished CIRCUIT_BREAKER_OPEN error without invoking the wrapped
operation; otherwise the operation ran and its success/failure (failures are
rethrown to the caller) is reported. -/
inductive CBResult
  | blocked
  | opSucceeded
  | opFailed
deriving DecidableEq, Repr

/-- Run the wrapped operation (whose outcome is `ok`) and update the breaker. -/
def CircuitBreaker.runOp (cb : CircuitBreaker) (now : Nat) (ok : Bool) :
    CircuitBreaker × CBResult × List CBMode :=
  if ok then
    (cb.onSuccess.1, .opSucceeded, cb.onSuccess.2)
  else
    ((cb.onFailure now).1, .opFailed, (cb.onFailure now).2)

/-- `CircuitBreaker.execute` at time `now`; `ok` is the outcome the wrapped
operation would produce if invoked.  JS computes
`Date.now() - this.lastFailureTime`, coercing a null `lastFailureTime` to 0,
modelled by `Option.getD 0`. -/
def CircuitBreaker.execute (cb : CircuitBreaker) (now : Nat) (ok : Bool) :
    CircuitBreaker × CBResult × List CBMode :=
  if cb.state = .OPEN then
    if cb.resetTimeout ≤ now - (cb.lastFailureTime.getD 0) then
      let cb2 : CircuitBreaker := { cb with state := .HALF_OPEN }
      ((cb2.runOp now ok).1, (cb2.runOp now ok).2.1,
        .HALF_OPEN :: (cb2.runOp now ok).2.2)
    else
      (cb, .blocked, [])
  else
    cb.runOp now ok

/-- Breaker states reachable from the freshly constructed breaker by any
sequence of `execute` calls. -/
inductive CircuitBreaker.Reachable (ft rt : Nat) : CircuitBreaker → Prop
  | init : CircuitBreaker.Reachable ft rt (CircuitBreaker.init ft rt)
  | step {cb : CircuitBreaker} (now : Nat) (ok : Bool) :
      CircuitBreaker.Reachable ft rt cb →
      CircuitBreaker.Reachable ft rt (cb.execute now ok).1

/-- In every reachable breaker, a non-CLOSED state implies the failure count
has reached the threshold (so a HALF_OPEN trial failure always re-opens). -/
theorem CircuitBreaker.reachable_count {ft rt : Nat} {cb : CircuitBreaker}
    (h : CircuitBreaker.Reachable ft rt cb) :
    cb.state ≠ .CLOSED → cb.failureThreshold ≤ cb.failureCount := by
  induction h with
  | init => intro hne; exact absurd rfl hne
  | step now ok hr ih =>
    rename_i cb
    intro hne
    cases hstate : cb.state with
    | CLOSED =>
      cases ok with
      | true =>
        simp [CircuitBreaker.execute, CircuitBreaker.runOp,
          CircuitBreaker.onSuccess, hstate] at hne
      | false =>
        simp only [CircuitBreaker.execute, CircuitBreaker.runOp,
          CircuitBreaker.onFailure, hstate] at hne ⊢
        simp only [reduceCtorEq, if_false, Bool.false_eq_true] at hne ⊢
        split_ifs at hne ⊢ with hth
        · exact hth
        · exact absurd rfl hne
    | OPEN =>
      have hcnt : cb.failureThreshold ≤ cb.failureCount := ih (by simp [hstate])
      by_cases helapsed : cb.resetTimeout ≤ now - (cb.lastFailureTime.getD 0)
      · cases ok with
        | true =>
          simp [CircuitBreaker.execute, CircuitBreaker.runOp,
            CircuitBreaker.onSuccess, hstate, helapsed] at hne
        | false =>
          simp only [CircuitBreaker.execute, CircuitBreaker.runOp,
            CircuitBreaker.onFailure, hstate, helapsed] at hne ⊢
          simp only [if_true, if_pos, Bool.false_eq_true, if_false] at hne ⊢
          split_ifs at hne ⊢ with hth
          · exact hth
          · omega
      · simp only [CircuitBreaker.execute, hstate, if_pos,
          if_neg helapsed] at hne ⊢
        exact hcnt
    | HALF_OPEN =>
      have hcnt : cb.failureThreshold ≤ cb.failureCount := ih (by simp [hstate])
      cases ok with
      | true =>
        simp [CircuitBreaker.execute, CircuitBreaker.runOp,
          CircuitBreaker.onSuccess, hstate] at hne
      | false =>
        simp only [CircuitBreaker.execute, CircuitBreaker.runOp,
          CircuitBreaker.onFailure, hstate] at hne ⊢
        simp only [reduceCtorEq, if_false, Bool.false_eq_true] at hne ⊢
        split_ifs at hne ⊢ with hth
        · exact hth
        · omega

/-- The state-machine edges the spec allows: Closed→Open, Open→HalfOpen,
HalfOpen→Closed, HalfOpen→Open. -/
def cbAllowedEdge (s t : CBMode) : Prop :=
  (s = .CLOSED ∧ t = .OPEN) ∨ (s = .OPEN ∧ t = .HALF_OPEN) ∨
  (s = .HALF_OPEN ∧ t = .CLOSED) ∨ (s = .HALF_OPEN ∧ t = .OPEN)

/-- C4: from any reachable breaker, one `execute` call only moves the state
along the allowed edges (the emitted mode-change events form a chain of
allowed edges ending at the new state), and in the OPEN state, while the
elapsed time since the last failure is below the reset timeout, the call is
blocked (the distinguished breaker-open error) without invoking the wrapped
operation and without changing the breaker. -/
theorem circuitBreaker_transitions (ft rt : Nat) (cb : CircuitBreaker)
    (hreach : CircuitBreaker.Reachable ft rt cb) (now : Nat) (ok : Bool) :
    List.Chain cbAllowedEdge cb.state (cb.execute now ok).2.2 ∧
    some (cb.execute now ok).1.state =
      (cb.state :: (cb.execute now ok).2.2).getLast? ∧
    (cb.state = .OPEN → now - (cb.lastFailureTime.getD 0) < cb.resetTimeout →
      (cb.execute now ok).2.1 = .blocked ∧ (cb.execute now ok).1 = cb ∧
      (cb.execute now ok).2.2 = []) := by
  have hcnt := CircuitBreaker.reachable_count hreach
  cases hstate : cb.state with
  | CLOSED =>
    cases ok with
    | true =>
      refine ⟨?_, ?_, ?_⟩ <;>
        simp [CircuitBreaker.execute, CircuitBreaker.runOp,
          CircuitBreaker.onSuccess, hstate, cbAllowedEdge, List.getLast?]
    | false =>
      by_cases hth : cb.failureThreshold ≤ cb.failureCount + 1
      · refine ⟨?_, ?_, ?_⟩ <;>
          simp [CircuitBreaker.execute, CircuitBreaker.runOp,
            CircuitBreaker.onFailure, hstate, hth, cbAllowedEdge, List.getLast?]
      · refine ⟨?_, ?_, ?_⟩ <;>
          simp [CircuitBreaker.execute, CircuitBreaker.runOp,
            CircuitBreaker.onFailure, hstate, hth, cbAllowedEdge, List.getLast?]
  | OPEN =>
    have hc : cb.failureThreshold ≤ cb.failureCount := hcnt (by simp [hstate])
    by_cases helapsed : cb.resetTimeout ≤ now - (cb.lastFailureTime.getD 0)
    · cases ok with
      | true =>
        refine ⟨?_, ?_, ?_⟩ <;>
          simp [CircuitBreaker.execute, CircuitBreaker.runOp,
            CircuitBreaker.onSuccess, hstate, helapsed, cbAllowedEdge,
            List.getLast?]
      | false =>
        have hth : cb.failureThreshold ≤ cb.failureCount + 1 := by omega
        refine ⟨?_, ?_, ?_⟩ <;>
          simp [CircuitBreaker.execute, CircuitBreaker.runOp,
            CircuitBreaker.onFailure, hstate, helapsed, hth, cbAllowedEdge,
            List.getLast?]
    · refine ⟨?_, ?_, ?_⟩ <;>
        simp [CircuitBreaker.execute, hstate, helapsed, cbAllowedEdge,
          List.getLast?]
  | HALF_OPEN =>
    have hc : cb.failureThreshold ≤ cb.failureCount := hcnt (by simp [hstate])
    cases ok with
    | true =>
      refine ⟨?_, ?_, ?_⟩ <;>
        simp [CircuitBreaker.execute, CircuitBreaker.runOp,
          CircuitBreaker.onSuccess, hstate, cbAllowedEdge, List.getLast?]
    | false =>
      have hth : cb.failureThreshold ≤ cb.failureCount + 1 := by omega
      refine ⟨?_, ?_, ?_⟩ <;>
        simp [CircuitBreaker.execute, CircuitBreaker.runOp,
          CircuitBreaker.onFailure, hstate, hth, cbAllowedEdge, List.getLast?]

/-- Witness for C4 at the freshly constructed breaker (threshold 5, reset
timeout 60000), executing a failing call at time 0. -/
theorem circuitBreaker_transitions_witness :
    List.Chain cbAllowedEdge (CircuitBreaker.init 5 60000).state
      ((CircuitBreaker.init 5 60000).execute 0 false).2.2 ∧
    some ((CircuitBreaker.init 5 60000).execute 0 false).1.state =
      ((CircuitBreaker.init 5 60000).state ::
        ((CircuitBreaker.init 5 60000).execute 0 false).2.2).getLast? ∧
    ((CircuitBreaker.init 5 60000).state = .OPEN →
      0 - ((CircuitBreaker.init 5 60000).lastFailureTime.getD 0) <
        (CircuitBreaker.init 5 60000).resetTimeout →
      ((CircuitBreaker.init 5 60000).execute 0 false).2.1 = .blocked ∧
      ((CircuitBreaker.init 5 60000).execute 0 false).1 =
        CircuitBreaker.init 5 60000 ∧
      ((CircuitBreaker.init 5 60000).execute 0 false).2.2 = []) :=
  circuitBreaker_transitions 5 60000 (CircuitBreaker.init 5 60000)
    CircuitBreaker.Reachable.init 0 false

/-- The dedup/concurrency key `symbol-buyExchange-sellExchange`
(`src/arbitrage/index.js` line 420). -/
def opKey (symbol buyExchange sellExchange : String) : String :=
  symbol ++ "-" ++ buyExchange ++ "-" ++ sellExchange

/-- The admission gate of `findAndExecuteArbitrageOpportunity`
(`src/arbitrage/index.js` lines 419-437) combined with the synchronous
`activeArbitrageOps.set(key, Date.now())` performed at the top of
`executeArbitrageWithRecovery` (line 461): the execution is started (true)
iff no active operation exists under the key and the active-operation count
is below `MAX_CONCURRENT_TRADES`, in which case the key is inserted.  The
`activeArbitrageOps` map is modelled as an association list from keys to
creation timestamps. -/
def tryDispatch (maxConcurrentTrades : Nat) (ops : List (String × Nat))
    (key : String) (now : Nat) : Bool × List (String × Nat) :=
  if ops.lookup key = none ∧ ops.length < maxConcurrentTrades then
    (true, (key, now) :: ops)
  else
    (false, ops)

/-- C5: dispatch admission is deduplicating and bounded.  When the key is
absent and the count is below the ceiling, the first dispatch is admitted and
inserts the key, and a second dispatch under the same key (before any cooldown
removal) is rejected without starting a second execution; any dispatch is
rejected (and the map unchanged) once the count has reached the ceiling. -/
theorem dispatch_dedup_bounded (maxConcurrentTrades : Nat)
    (ops : List (String × Nat)) (key : String) (now now2 : Nat)
    (habsent : ops.lookup key = none)
    (hroom : ops.length < maxConcurrentTrades) :
    (tryDispatch maxConcurrentTrades ops key now).1 = true ∧
    ((tryDispatch maxConcurrentTrades ops key now).2).lookup key = some now ∧
    (tryDispatch maxConcurrentTrades
      (tryDispatch maxConcurrentTrades ops key now).2 key now2).1 = false ∧
    (∀ (ops2 : List (String × Nat)) (key2 : String),
        maxConcurrentTrades ≤ ops2.length →
        (tryDispatch maxConcurrentTrades ops2 key2 now2).1 = false ∧
        (tryDispatch maxConcurrentTrades ops2 key2 now2).2 = ops2) := by
  refine ⟨?_, ?_, ?_, ?_⟩
  · simp [tryDispatch, habsent, hroom]
  · simp [tryDispatch, habsent, hroom, List.lookup]
  · simp [tryDispatch, habsent, hroom, List.lookup]
  · intro ops2 key2 hfull
    have hcond : ¬(ops2.lookup key2 = none ∧
        ops2.length < maxConcurrentTrades) := by
      rintro ⟨-, hlt⟩
      omega
    simp only [tryDispatch]
    rw [if_neg hcond]
    exact ⟨rfl, rfl⟩

/-- Witness for C5: empty map, ceiling 3, key BTC/USDT-binance-kraken. -/
theorem dispatch_dedup_bounded_witness :
    (tryDispatch 3 [] (opKey "BTC/USDT" "binance" "kraken") 5).1 = true ∧
    ((tryDispatch 3 [] (opKey "BTC/USDT" "binance" "kraken") 5).2).lookup
      (opKey "BTC/USDT" "binance" "kraken") = some 5 ∧
    (tryDispatch 3 (tryDispatch 3 [] (opKey "BTC/USDT" "binance" "kraken") 5).2
      (opKey "BTC/USDT" "binance" "kraken") 10).1 = false ∧
    (∀ (ops2 : List (String × Nat)) (key2 : String),
        3 ≤ ops2.length →
        (tryDispatch 3 ops2 key2 10).1 = false ∧
        (tryDispatch 3 ops2 key2 10).2 = ops2) :=
  dispatch_dedup_bounded 3 [] (opKey "BTC/USDT" "binance" "kraken") 5 10
    rfl (by decide)

/-- A JavaScript error raised inside the engine, identified by its `code`
(`ArbitrageError`/`ValidationError` etc. of `src/utils/errors.js`). -/
structure ArbJsError where
  code : String
  message : String
deriving DecidableEq, Repr

/-- An order object as returned by `executeBuy`/`executeSell`; only the
optional `id` field is consumed downstream (`order.id || 'simulated'`). -/
structure Order where
  id : Option String
deriving DecidableEq, Repr

def isUpperAlpha (c : Char) : Bool := decide ('A' ≤ c ∧ c ≤ 'Z')

/-- `validators.isValidSymbol` (`src/utils/errors.js` lines 241-249): a
non-empty string matching `^[A-Z]+\/[A-Z]+$` (exactly one slash separating
two non-empty upper-case words). -/
def isValidSymbol (symbol : String) : Bool :=
  match symbol.toList.splitOn '/' with
  | [base, quote] =>
    !base.isEmpty && !quote.isEmpty && base.all isUpperAlpha &&
      quote.all isUpperAlpha
  | _ => false

/-- `validators.isValidAmount` (`src/utils/errors.js` lines 251-256): a
positive finite number (finiteness is automatic over ℚ). -/
def isValidAmount (amount : ℚ) : Bool := decide (0 < amount)

/-- The retry predicate used for the buy and sell legs
(`src/arbitrage/index.js` lines 539-544 and 560-564): retry only errors whose
message contains "timeout" and mentions neither "insufficient" nor "balance". -/
def tradeRetryCondition (e : ArbJsError) (_attempt : Nat) : Bool :=
  jsIncludes e.message "timeout" && !(jsIncludes e.message "insufficient") &&
    !(jsIncludes e.message "balance")

/-- The `withRetry` options for the buy/sell legs: `maxRetries: 1`,
`baseDelay: 1000`, the remaining fields at the `withRetry` defaults. -/
def tradeLegRetryOptions : RetryOptions ArbJsError :=
  { maxRetries := 1, baseDelay := 1000, maxDelay := 10000, backoffFactor := 2,
    retryCondition := tradeRetryCondition }

/-- The trade record built on full success (`src/arbitrage/index.js` lines
581-590); the spread opportunity fields and the ISO completion timestamp are
carried by `opportunity` / dropped as before. -/
structure Trade where
  opportunity : Opportunity
  buyOrderId : String
  sellOrderId : String
  baseAmount : ℚ
  quoteAmount : ℚ
  completed : Bool
  executionTime : Nat
deriving DecidableEq, Repr

/-- Observable outcome of one `executeArbitrage` run: the returned/raised
result, how many times the wrapped sell operation was invoked by its
`withRetry`, whether the CRITICAL buy-succeeded-sell-failed condition was
logged at error severity, and the trade record handed to `recordTrade`. -/
structure ExecOutcome where
  result : Except ArbJsError Trade
  sellInvocations : Nat
  criticalLogged : Bool
  recordedTrade : Option Trade
deriving Repr

/-- `executeArbitrage` (`src/arbitrage/index.js` lines 496-628).  The two leg
placements go through `withRetry`; since `executeBuy`/`executeSell` catch
every failure and resolve with `null` (C10), the wrapped operations always
resolve, with `buyResult`/`sellResult` as their values.  Error enhancement
(`enhanceError`) only rewrites messages/context and is dropped. -/
def executeArbitrage (symbol : String) (amount : ℚ)
    (buyExchangeId sellExchangeId : Option String) (opp : Opportunity)
    (buyResult sellResult : Option Order) (now : Nat) : ExecOutcome :=
  if isValidSymbol symbol = false then
    ⟨.error ⟨"VALIDATION_ERROR", "Symbol must be in format BASE/QUOTE"⟩,
      0, false, none⟩
  else if isValidAmount amount = false then
    ⟨.error ⟨"VALIDATION_ERROR", "Amount must be a positive finite number"⟩,
      0, false, none⟩
  else
    match buyExchangeId with
    | none => ⟨.error ⟨"INVALID_BUY_EXCHANGE", "Invalid buy exchange"⟩,
        0, false, none⟩
    | some buyId =>
      match sellExchangeId with
      | none => ⟨.error ⟨"INVALID_SELL_EXCHANGE", "Invalid sell exchange"⟩,
          0, false, none⟩
      | some sellId =>
        if opp.buyPrice ≤ 0 then
          ⟨.error ⟨"VALIDATION_ERROR", "Invalid opportunity data"⟩,
            0, false, none⟩
        else
          let baseAmount := amount / opp.buyPrice
          if baseAmount ≤ 0 then
            ⟨.error ⟨"VALIDATION_ERROR", "Invalid calculated base amount"⟩,
              0, false, none⟩
          else
            match (withRetry (fun _ => Except.ok buyResult)
                tradeLegRetryOptions).1 with
            | .error e => ⟨.error e, 0, false, none⟩
            | .ok none =>
              ⟨.error ⟨"BUY_ORDER_FAILED",
                "Failed to execute buy order on " ++ buyId⟩, 0, false, none⟩
            | .ok (some buyOrder) =>
              let sellRun := withRetry (fun _ => Except.ok sellResult)
                tradeLegRetryOptions
              match sellRun.1 with
              | .error e => ⟨.error e, sellRun.2.2, false, none⟩
              | .ok none =>
                ⟨.error ⟨"SELL_ORDER_FAILED_AFTER_BUY",
                  "Failed to execute sell order on " ++ sellId ++
                    " after successful buy"⟩, sellRun.2.2, true, none⟩
              | .ok (some sellOrder) =>
                let trade : Trade :=
                  { opportunity := opp,
                    buyOrderId := buyOrder.id.getD "simulated",
                    sellOrderId := sellOrder.id.getD "simulated",
                    baseAmount := baseAmount, quoteAmount := amount,
                    completed := true,
                    executionTime := now - opp.scanTimestamp }
                ⟨.ok trade, sellRun.2.2, false, some trade⟩

/-- C6: when the buy leg fails (`executeBuy` resolves with no order),
`executeArbitrage` raises the BUY_ORDER_FAILED error, the sell leg is never
invoked (zero sell invocations, whatever the sell leg would have returned),
and no trade record is created or handed to `recordTrade`. -/
theorem executeArbitrage_buy_fail (symbol : String) (amount : ℚ)
    (buyId sellId : String) (opp : Opportunity) (sellResult : Option Order)
    (now : Nat) (hsym : isValidSymbol symbol = true) (hamt : 0 < amount)
    (hprice : 0 < opp.buyPrice) :
    executeArbitrage symbol amount (some buyId) (some sellId) opp none
        sellResult now =
      ⟨.error ⟨"BUY_ORDER_FAILED",
        "Failed to execute buy order on " ++ buyId⟩, 0, false, none⟩ := by
  have hbase : ¬ (amount / opp.buyPrice ≤ 0) :=
    not_le.mpr (div_pos hamt hprice)
  have hbuyrun : withRetry (fun _ => Except.ok (none : Option Order))
      tradeLegRetryOptions = (Except.ok none, [], 1) := withRetryGo_ok rfl
  have hamt' : isValidAmount amount = true := by
    simpa [isValidAmount] using hamt
  simp [executeArbitrage, hsym, hamt', not_le.mpr hprice, hbase, hbuyrun]

/-- Witness for C6 at Scenario A parameters with a failed buy leg. -/
theorem executeArbitrage_buy_fail_witness :
    executeArbitrage "BTC/USDT" 100 (some "V1") (some "V2") scenarioAOpp none
        (some ⟨some "sellOrder1"⟩) 0 =
      ⟨.error ⟨"BUY_ORDER_FAILED",
        "Failed to execute buy order on " ++ "V1"⟩, 0, false, none⟩ :=
  executeArbitrage_buy_fail "BTC/USDT" 100 "V1" "V2" scenarioAOpp
    (some ⟨some "sellOrder1"⟩) 0 (by decide) (by norm_num)
    (by norm_num [scenarioAOpp])

/-- C7: when the buy leg succeeds and the sell leg then fails,
`executeArbitrage` raises the distinguished SELL_ORDER_FAILED_AFTER_BUY
error, logs the condition at the highest severity, invokes the wrapped sell
operation exactly once (no automatic retry or unwind), and records no trade. -/
theorem executeArbitrage_sell_fail (symbol : String) (amount : ℚ)
    (buyId sellId : String) (opp : Opportunity) (buyOrder : Order)
    (now : Nat) (hsym : isValidSymbol symbol = true) (hamt : 0 < amount)
    (hprice : 0 < opp.buyPrice) :
    executeArbitrage symbol amount (some buyId) (some sellId) opp
        (some buyOrder) none now =
      ⟨.error ⟨"SELL_ORDER_FAILED_AFTER_BUY",
        "Failed to execute sell order on " ++ sellId ++
          " after successful buy"⟩, 1, true, none⟩ := by
  have hbase : ¬ (amount / opp.buyPrice ≤ 0) :=
    not_le.mpr (div_pos hamt hprice)
  have hbuyrun : withRetry (fun _ => Except.ok (some buyOrder))
      tradeLegRetryOptions = (Except.ok (some buyOrder), [], 1) :=
    withRetryGo_ok rfl
  have hsellrun : withRetry (fun _ => Except.ok (none : Option Order))
      tradeLegRetryOptions = (Except.ok none, [], 1) := withRetryGo_ok rfl
  have hamt' : isValidAmount amount = true := by
    simpa [isValidAmount] using hamt
  simp [executeArbitrage, hsym, hamt', not_le.mpr hprice, hbase, hbuyrun,
    hsellrun]

/-- Witness for C7 at Scenario A parameters with a successful buy and a
failed sell leg. -/
theorem executeArbitrage_sell_fail_witness :
    executeArbitrage "BTC/USDT" 100 (some "V1") (some "V2") scenarioAOpp
        (some ⟨some "buyOrder1"⟩) none 0 =
      ⟨.error ⟨"SELL_ORDER_FAILED_AFTER_BUY",
        "Failed to execute sell order on " ++ "V2" ++
          " after successful buy"⟩, 1, true, none⟩ :=
  executeArbitrage_sell_fail "BTC/USDT" 100 "V1" "V2" scenarioAOpp
    ⟨some "buyOrder1"⟩ 0 (by decide) (by norm_num)
    (by norm_num [scenarioAOpp])

/-- Per-exchange health entry (`src/arbitrage/index.js` lines 66-72). -/
structure ExchangeHealth where
  healthy : Bool
  errorCount : Nat
  lastError : Option String
  lastSuccessfulScan : Nat
deriving DecidableEq, Repr

/-- The entry `startArbitrageScanner` creates at time `t0`. -/
def ExchangeHealth.init (t0 : Nat) : ExchangeHealth :=
  { healthy := true, errorCount := 0, lastError := none,
    lastSuccessfulScan := t0 }

/-- One per-venue fetch outcome inside `scanPairAcrossExchanges`: a quote
fetch reaching the success handler at time `t` (lines 259-268), or an error
reaching the catch handler with message `msg` (lines 279-307). -/
inductive FetchOutcome
  | ok (t : Nat)
  | err (msg : String)
deriving DecidableEq, Repr

def isErrOutcome : FetchOutcome → Bool
  | .err _ => true
  | .ok _ => false

/-- The success handler (lines 259-268): update `lastSuccessfulScan`; only
when currently unhealthy, mark healthy again and reset the error count. -/
def healthOnSuccess (h : ExchangeHealth) (t : Nat) : ExchangeHealth :=
  let h2 : ExchangeHealth := { h with lastSuccessfulScan := t }
  if h2.healthy = false then
    { h2 with healthy := true, errorCount := 0 }
  else
    h2

/-- The catch handler (lines 282-296): increment the error count, record the
message, and mark unhealthy once the count has reached 3. -/
def healthOnError (h : ExchangeHealth) (msg : String) : ExchangeHealth :=
  let h2 : ExchangeHealth :=
    { h with errorCount := h.errorCount + 1, lastError := some msg }
  if 3 ≤ h2.errorCount then
    { h2 with healthy := false }
  else
    h2

def healthStep (h : ExchangeHealth) : FetchOutcome → ExchangeHealth
  | .ok t => healthOnSuccess h t
  | .err m => healthOnError h m

/-- The health entry after a sequence of fetch outcomes (sweep not involved). -/
def runHealth (h : ExchangeHealth) (tr : List FetchOutcome) : ExchangeHealth :=
  tr.foldl healthStep h

/-- Length of the longest run of consecutive errors in a trace. -/
def maxConsecErrors (tr : List FetchOutcome) : Nat :=
  (tr.foldl
    (fun p o =>
      match o with
      | .err _ => (p.1 + 1, max p.2 (p.1 + 1))
      | .ok _ => (0, p.2)) ((0 : Nat), (0 : Nat))).2

theorem healthOnError_count (h : ExchangeHealth) (m : String) :
    (healthOnError h m).errorCount = h.errorCount + 1 := by
  simp only [healthOnError]
  split <;> rfl

theorem healthOnError_unhealthy (h : ExchangeHealth) (m : String)
    (h3 : 3 ≤ h.errorCount + 1) : (healthOnError h m).healthy = false := by
  simp only [healthOnError]
  rw [if_pos (by simpa using h3)]

theorem runHealth_few_errors : ∀ (tr : List FetchOutcome) (h : ExchangeHealth),
    h.healthy = true → h.errorCount + tr.countP isErrOutcome < 3 →
    (runHealth h tr).healthy = true := by
  intro tr
  induction tr with
  | nil => intro h hh _; exact hh
  | cons o tr ih =>
    intro h hh hc
    cases o with
    | ok t =>
      have hstep : (healthStep h (.ok t)).healthy = true ∧
          (healthStep h (.ok t)).errorCount = h.errorCount := by
        simp [healthStep, healthOnSuccess, hh]
      have hc2 : (healthStep h (.ok t)).errorCount +
          tr.countP isErrOutcome < 3 := by
        rw [hstep.2]
        have : ((FetchOutcome.ok t) :: tr).countP isErrOutcome =
            tr.countP isErrOutcome := by
          simp [List.countP_cons, isErrOutcome]
        omega
      exact ih _ hstep.1 hc2
    | err m =>
      have hcnt : ((FetchOutcome.err m) :: tr).countP isErrOutcome =
          tr.countP isErrOutcome + 1 := by
        simp [List.countP_cons, isErrOutcome]
      have hlt : h.errorCount + 1 < 3 := by omega
      have hstep : (healthStep h (.err m)).healthy = true ∧
          (healthStep h (.err m)).errorCount = h.errorCount + 1 := by
        simp only [healthStep, healthOnError]
        rw [if_neg (by simp; omega)]
        exact ⟨hh, rfl⟩
      exact ih _ hstep.1 (by rw [hstep.2]; omega)

/-- C9 (amended): three consecutive fetch errors always mark the venue
unhealthy immediately within the fetch path; and from a fresh (or
just-reset) health entry the venue stays healthy while fewer than three
errors have accumulated in total.  However, the error count is cumulative
across intervening successful fetches while the venue is healthy (it is
reset only when an unhealthy venue recovers), so three non-consecutive
errors since the last reset also mark the venue unhealthy. -/
theorem health_error_threshold :
    (∀ (h0 : ExchangeHealth) (pre : List FetchOutcome) (m1 m2 m3 : String),
        (runHealth h0 (pre ++ [.err m1, .err m2, .err m3])).healthy = false) ∧
    (∀ (tr : List FetchOutcome) (t0 : Nat),
        tr.countP isErrOutcome < 3 →
        (runHealth (ExchangeHealth.init t0) tr).healthy = true) := by
  constructor
  · intro h0 pre m1 m2 m3
    rw [runHealth, List.foldl_append]
    simp only [List.foldl_cons, List.foldl_nil, healthStep]
    apply healthOnError_unhealthy
    rw [healthOnError_count, healthOnError_count]
    omega
  · intro tr t0 hc
    exact runHealth_few_errors tr _ rfl (by simpa [ExchangeHealth.init] using hc)

/-- Witness for the amended C9. -/
theorem health_error_threshold_witness :
    (runHealth (ExchangeHealth.init 0)
      ([] ++ [.err "timeout", .err "timeout", .err "timeout"])).healthy = false ∧
    (runHealth (ExchangeHealth.init 0) [.err "timeout", .ok 5]).healthy = true :=
  ⟨health_error_threshold.1 (ExchangeHealth.init 0) [] "timeout" "timeout"
      "timeout",
    health_error_threshold.2 [.err "timeout", .ok 5] 0 (by decide)⟩

/-- C9 counterexample: the trace error, error, success, error — whose longest
run of consecutive errors is 2 — still marks the venue unhealthy, because the
success while healthy does not reset the error count.  So venues can be
marked unhealthy by this path with fewer than 3 consecutive errors. -/
theorem health_error_counterexample :
    (runHealth (ExchangeHealth.init 0)
      [.err "e1", .err "e2", .ok 5, .err "e3"]).healthy = false ∧
    maxConsecErrors [.err "e1", .err "e2", .ok 5, .err "e3"] = 2 := by
  constructor
  · rfl
  · rfl

/-- A market entry of a loaded CCXT markets dictionary; only `active` is
consumed by the wrappers. -/
structure Market where
  active : Bool
deriving DecidableEq, Repr

/-- A CCXT exchange instance as consumed by the wrappers in
`src/exchanges/index.js`: `id = none` models a falsy `exchange.id` (or a
missing instance), `markets = none` a falsy `exchange.markets`. -/
structure Exchange where
  id : Option String
  markets : Option (List (String × Market))
deriving DecidableEq, Repr

/-- A raw CCXT order book; `none` at the call site models a falsy/invalid
response. -/
structure OrderBook where
  bids : List (ℚ × ℚ)
  asks : List (ℚ × ℚ)
deriving DecidableEq, Repr

/-- The retry predicate of the fetch paths (`fetchOrderBook`, lines 430-434):
retry network errors only. -/
def networkRetryCondition (e : ArbJsError) (_attempt : Nat) : Bool :=
  jsIncludes e.message "timeout" || jsIncludes e.message "ECONNREFUSED" ||
    jsIncludes e.message "rate limit"

/-- `withRetry` options of `fetchOrderBook`: `maxRetries: 2`,
`baseDelay: 1000`, remaining defaults. -/
def fetchRetryOptions : RetryOptions ArbJsError :=
  { maxRetries := 2, baseDelay := 1000, maxDelay := 10000, backoffFactor := 2,
    retryCondition := networkRetryCondition }

/-- `withRetry` options of `executeBuy`/`executeSell` in the exchange module:
`maxRetries: 1`, `baseDelay: 2000`, remaining defaults. -/
def orderRetryOptions : RetryOptions ArbJsError :=
  { maxRetries := 1, baseDelay := 2000, maxDelay := 10000, backoffFactor := 2,
    retryCondition := tradeRetryCondition }

/-- The operation `withRetry` wraps inside `executeBuy`/`executeSell`: the
raw CCXT market-order call (one outcome per attempt), followed by the
`!order || !order.id` validation that throws INVALID_ORDER_RESPONSE. -/
def validatedOrderOp (op : Nat → Except ArbJsError (Option Order))
    (side : String) : Nat → Except ArbJsError Order := fun k =>
  match op k with
  | .error e => .error e
  | .ok none =>
    .error ⟨"INVALID_ORDER_RESPONSE", "Invalid order response for " ++ side ++
      " order"⟩
  | .ok (some o) =>
    match o.id with
    | none =>
      .error ⟨"INVALID_ORDER_RESPONSE", "Invalid order response for " ++
        side ++ " order"⟩
    | some _ => .ok o

/-- The operation `withRetry` wraps inside `fetchOrderBook`: the raw CCXT
order-book call followed by the array/non-empty validations. -/
def validatedOrderBookOp (op : Nat → Except ArbJsError (Option OrderBook))
    (symbol : String) : Nat → Except ArbJsError OrderBook := fun k =>
  match op k with
  | .error e => .error e
  | .ok none =>
    .error ⟨"INVALID_ORDERBOOK_DATA",
      "Invalid order book data received for " ++ symbol⟩
  | .ok (some ob) =>
    if ob.bids.isEmpty || ob.asks.isEmpty then
      .error ⟨"EMPTY_ORDERBOOK", "Empty order book for " ++ symbol⟩
    else
      .ok ob

/-- The circuit-breaker gate shared by the wrappers: run the retried inner
operation through `CircuitBreaker.execute`; when the breaker blocks, the
distinguished CIRCUIT_BREAKER_OPEN error is thrown, otherwise the inner
result (value or rethrown error) is returned. -/
def cbGate {A : Type _} (cb : CircuitBreaker) (now : Nat)
    (inner : Except ArbJsError A) : Except ArbJsError A :=
  match (cb.execute now inner.isOk).2.1 with
  | .blocked =>
    .error ⟨"CIRCUIT_BREAKER_OPEN", "Circuit breaker is OPEN - operation blocked"⟩
  | _ => inner

/-- The body of `fetchOrderBook` (`src/exchanges/index.js` lines 374-439),
before the surrounding catch-all; `op` gives the raw per-attempt outcome of
`exchange.fetchOrderBook`. -/
def fetchOrderBookBody (ex : Exchange) (symbol : String) (limit : ℚ)
    (cb? : Option CircuitBreaker) (now : Nat)
    (op : Nat → Except ArbJsError (Option OrderBook)) :
    Except ArbJsError OrderBook :=
  if isValidSymbol symbol = false then
    .error ⟨"VALIDATION_ERROR", "Symbol must be in format BASE/QUOTE"⟩
  else if limit ≤ 0 ∨ 100 < limit then
    .error ⟨"VALIDATION_ERROR",
      "Limit must be a positive number between 1 and 100"⟩
  else
    match ex.id with
    | none => .error ⟨"INVALID_EXCHANGE", "Invalid exchange instance"⟩
    | some exId =>
      match ex.markets with
      | none =>
        .error ⟨"MARKET_NOT_AVAILABLE",
          "Trading pair " ++ symbol ++ " not available on " ++ exId⟩
      | some markets =>
        match markets.lookup symbol with
        | none =>
          .error ⟨"MARKET_NOT_AVAILABLE",
            "Trading pair " ++ symbol ++ " not available on " ++ exId⟩
        | some _ =>
          match cb? with
          | none =>
            .error ⟨"CIRCUIT_BREAKER_MISSING",
              "Circuit breaker not found for " ++ exId⟩
          | some cb =>
            cbGate cb now
              (withRetry (validatedOrderBookOp op symbol) fetchRetryOptions).1

/-- `fetchOrderBook`: the body wrapped in the catch-all that logs and
returns `null` on every failure. -/
def fetchOrderBook (ex : Exchange) (symbol : String) (limit : ℚ)
    (cb? : Option CircuitBreaker) (now : Nat)
    (op : Nat → Except ArbJsError (Option OrderBook)) : Option OrderBook :=
  match fetchOrderBookBody ex symbol limit cb? now op with
  | .ok ob => some ob
  | .error _ => none

/-- The body of `executeBuy`/`executeSell` (`src/exchanges/index.js` lines
468-552 and 581-665), identical up to the side; `op` gives the raw
per-attempt outcome of the CCXT market-order call. -/
def executeOrderBody (side : String) (enableTrading : Bool) (ex : Exchange)
    (symbol : String) (amount : ℚ) (cb? : Option CircuitBreaker) (now : Nat)
    (op : Nat → Except ArbJsError (Option Order)) : Except ArbJsError Order :=
  if isValidSymbol symbol = false then
    .error ⟨"VALIDATION_ERROR", "Symbol must be in format BASE/QUOTE"⟩
  else if isValidAmount amount = false then
    .error ⟨"VALIDATION_ERROR", "Amount must be a positive finite number"⟩
  else
    match ex.id with
    | none => .error ⟨"INVALID_EXCHANGE", "Invalid exchange instance"⟩
    | some exId =>
      if enableTrading = false then
        .ok ⟨some ("sim_" ++ side ++ "_" ++ toString now)⟩
      else
        match ex.markets with
        | none =>
          .error ⟨"MARKET_NOT_AVAILABLE",
            "Trading pair " ++ symbol ++ " not available on " ++ exId⟩
        | some markets =>
          match markets.lookup symbol with
          | none =>
            .error ⟨"MARKET_NOT_AVAILABLE",
              "Trading pair " ++ symbol ++ " not available on " ++ exId⟩
          | some market =>
            if market.active = false then
              .error ⟨"MARKET_INACTIVE",
                "Trading pair " ++ symbol ++ " is not active on " ++ exId⟩
            else
              match cb? with
              | none =>
                .error ⟨"CIRCUIT_BREAKER_MISSING",
                  "Circuit breaker not found for " ++ exId⟩
              | some cb =>
                cbGate cb now
                  (withRetry (validatedOrderOp op side) orderRetryOptions).1

/-- `executeBuy`: the body wrapped in the catch-all returning `null` on
every failure. -/
def executeBuy (enableTrading : Bool) (ex : Exchange) (symbol : String)
    (amount : ℚ) (cb? : Option CircuitBreaker) (now : Nat)
    (op : Nat → Except ArbJsError (Option Order)) : Option Order :=
  match executeOrderBody "buy" enableTrading ex symbol amount cb? now op with
  | .ok o => some o
  | .error _ => none

/-- `executeSell`: the body wrapped in the catch-all returning `null` on
every failure. -/
def executeSell (enableTrading : Bool) (ex : Exchange) (symbol : String)
    (amount : ℚ) (cb? : Option CircuitBreaker) (now : Nat)
    (op : Nat → Except ArbJsError (Option Order)) : Option Order :=
  match executeOrderBody "sell" enableTrading ex symbol amount cb? now op with
  | .ok o => some o
  | .error _ => none

theorem withRetryGo_ok_attempt {E A : Type _} (op : Nat → Except E A)
    (o : RetryOptions E) : ∀ (attempt : Nat) (v : A),
    (withRetryGo op o attempt).1 = .ok v → ∃ k, op k = .ok v := by
  intro attempt v h
  cases hop : op attempt with
  | ok a =>
    rw [withRetryGo_ok hop] at h
    simp only at h
    cases h
    exact ⟨attempt, hop⟩
  | error e =>
    by_cases hcond : o.maxRetries ≤ attempt ∨ o.retryCondition e attempt = false
    · rw [withRetryGo_stop hop hcond] at h
      exact absurd h (by simp)
    · rw [withRetryGo_retry hop hcond] at h
      exact withRetryGo_ok_attempt op o (attempt + 1) v h
termination_by attempt _ => o.maxRetries - attempt
decreasing_by push_neg at hcond; omega

theorem withRetry_error_of_all_error {E A : Type _} (op : Nat → Except E A)
    (o : RetryOptions E) (hall : ∀ k, ∃ e, op k = .error e) :
    ∃ e, (withRetry op o).1 = .error e := by
  cases hr : (withRetry op o).1 with
  | ok v =>
    obtain ⟨k, hk⟩ := withRetryGo_ok_attempt op o 0 v hr
    obtain ⟨e, he⟩ := hall k
    rw [hk] at he
    exact absurd he (by simp)
  | error e => exact ⟨e, rfl⟩

theorem cbGate_blocked {A : Type _} (cb : CircuitBreaker) (now : Nat)
    (hopen : cb.state = .OPEN)
    (hlt : now - cb.lastFailureTime.getD 0 < cb.resetTimeout)
    (inner : Except ArbJsError A) :
    cbGate cb now inner =
      .error ⟨"CIRCUIT_BREAKER_OPEN",
        "Circuit breaker is OPEN - operation blocked"⟩ := by
  simp [cbGate, CircuitBreaker.execute, hopen, not_le.mpr hlt]

theorem cbGate_error {A : Type _} (cb : CircuitBreaker) (now : Nat)
    (e : ArbJsError) :
    ∃ e2, cbGate cb now (.error e : Except ArbJsError A) = .error e2 := by
  cases hg : (cb.execute now (Except.error e : Except ArbJsError A).isOk).2.1 with
  | blocked =>
    exact ⟨⟨"CIRCUIT_BREAKER_OPEN", "Circuit breaker is OPEN - operation blocked"⟩,
      by simp [cbGate, hg]⟩
  | opSucceeded => exact ⟨e, by simp [cbGate, hg]⟩
  | opFailed => exact ⟨e, by simp [cbGate, hg]⟩

theorem fetchOrderBook_of_body_error (ex : Exchange) (symbol : String)
    (limit : ℚ) (cb? : Option CircuitBreaker) (now : Nat)
    (op : Nat → Except ArbJsError (Option OrderBook)) (e : ArbJsError)
    (h : fetchOrderBookBody ex symbol limit cb? now op = .error e) :
    fetchOrderBook ex symbol limit cb? now op = none := by
  unfold fetchOrderBook
  rw [h]

theorem executeOrder_of_body_error (side : String) (enableTrading : Bool)
    (ex : Exchange) (symbol : String) (amount : ℚ)
    (cb? : Option CircuitBreaker) (now : Nat)
    (op : Nat → Except ArbJsError (Option Order)) (e : ArbJsError)
    (h : executeOrderBody side enableTrading ex symbol amount cb? now op =
      .error e) :
    (match executeOrderBody side enableTrading ex symbol amount cb? now op with
      | .ok o => some o
      | .error _ => none) = none := by
  rw [h]

theorem fetchOrderBookBody_error_of_blocked (ex : Exchange) (symbol : String)
    (limit : ℚ) (cb : CircuitBreaker) (now : Nat)
    (op : Nat → Except ArbJsError (Option OrderBook))
    (hopen : cb.state = .OPEN)
    (hlt : now - cb.lastFailureTime.getD 0 < cb.resetTimeout) :
    ∃ e, fetchOrderBookBody ex symbol limit (some cb) now op = .error e := by
  unfold fetchOrderBookBody
  split_ifs
  · exact ⟨_, rfl⟩
  · exact ⟨_, rfl⟩
  · split
    · exact ⟨_, rfl⟩
    · split
      · exact ⟨_, rfl⟩
      · split
        · exact ⟨_, rfl⟩
        · exact ⟨_, cbGate_blocked cb now hopen hlt _⟩

theorem executeOrderBody_error_of_blocked (side : String) (ex : Exchange)
    (symbol : String) (amount : ℚ) (cb : CircuitBreaker) (now : Nat)
    (op : Nat → Except ArbJsError (Option Order))
    (hopen : cb.state = .OPEN)
    (hlt : now - cb.lastFailureTime.getD 0 < cb.resetTimeout) :
    ∃ e, executeOrderBody side true ex symbol amount (some cb) now op =
      .error e := by
  unfold executeOrderBody
  split_ifs with h1 h2 h3
  · exact ⟨_, rfl⟩
  · exact ⟨_, rfl⟩
  · split
    · exact ⟨_, rfl⟩
    · exact absurd h3 (by simp)
  · split
    · exact ⟨_, rfl⟩
    · split
      · exact ⟨_, rfl⟩
      · split
        · exact ⟨_, rfl⟩
        · split_ifs with h4
          · exact ⟨_, rfl⟩
          · exact ⟨_, cbGate_blocked cb now hopen hlt _⟩

/-- C10: the exchange-side operations `fetchOrderBook`, `executeBuy` and
`executeSell` are total at their interface: the catch-all maps every body
failure to `null` and every body success to its value, so no exception
reaches the caller; in particular invalid symbols, non-positive amounts,
an open circuit breaker and operations that throw on every attempt all
yield `none` — the cause of a failure (transient or permanent) is not
observable through the return value. -/
theorem exchange_ops_total :
    (∀ (ex : Exchange) (symbol : String) (limit : ℚ)
        (cb? : Option CircuitBreaker) (now : Nat)
        (op : Nat → Except ArbJsError (Option OrderBook)),
      (∀ e, fetchOrderBookBody ex symbol limit cb? now op = .error e →
        fetchOrderBook ex symbol limit cb? now op = none) ∧
      (∀ ob, fetchOrderBookBody ex symbol limit cb? now op = .ok ob →
        fetchOrderBook ex symbol limit cb? now op = some ob)) ∧
    (∀ (et : Bool) (ex : Exchange) (symbol : String) (amount : ℚ)
        (cb? : Option CircuitBreaker) (now : Nat)
        (op : Nat → Except ArbJsError (Option Order)),
      (∀ e, executeOrderBody "buy" et ex symbol amount cb? now op = .error e →
        executeBuy et ex symbol amount cb? now op = none) ∧
      (∀ o, executeOrderBody "buy" et ex symbol amount cb? now op = .ok o →
        executeBuy et ex symbol amount cb? now op = some o)) ∧
    (∀ (et : Bool) (ex : Exchange) (symbol : String) (amount : ℚ)
        (cb? : Option CircuitBreaker) (now : Nat)
        (op : Nat → Except ArbJsError (Option Order)),
      (∀ e, executeOrderBody "sell" et ex symbol amount cb? now op = .error e →
        executeSell et ex symbol amount cb? now op = none) ∧
      (∀ o, executeOrderBody "sell" et ex symbol amount cb? now op = .ok o →
        executeSell et ex symbol amount cb? now op = some o)) ∧
    (∀ (ex : Exchange) (symbol : String) (limit amount : ℚ)
        (cb? : Option CircuitBreaker) (now : Nat) (et : Bool)
        (opB : Nat → Except ArbJsError (Option OrderBook))
        (opO : Nat → Except ArbJsError (Option Order)),
      isValidSymbol symbol = false →
      fetchOrderBook ex symbol limit cb? now opB = none ∧
      executeBuy et ex symbol amount cb? now opO = none ∧
      executeSell et ex symbol amount cb? now opO = none) ∧
    (∀ (et : Bool) (ex : Exchange) (symbol : String) (amount : ℚ)
        (cb? : Option CircuitBreaker) (now : Nat)
        (opO : Nat → Except ArbJsError (Option Order)),
      amount ≤ 0 →
      executeBuy et ex symbol amount cb? now opO = none ∧
      executeSell et ex symbol amount cb? now opO = none) ∧
    (∀ (ex : Exchange) (symbol : String) (limit amount : ℚ)
        (cb : CircuitBreaker) (now : Nat)
        (opB : Nat → Except ArbJsError (Option OrderBook))
        (opO : Nat → Except ArbJsError (Option Order)),
      cb.state = .OPEN → now - cb.lastFailureTime.getD 0 < cb.resetTimeout →
      fetchOrderBook ex symbol limit (some cb) now opB = none ∧
      executeBuy true ex symbol amount (some cb) now opO = none ∧
      executeSell true ex symbol amount (some cb) now opO = none) ∧
    (∀ (exId : String) (mkts : List (String × Market)) (mk : Market)
        (symbol : String) (limit amount : ℚ) (cb : CircuitBreaker) (now : Nat)
        (opB : Nat → Except ArbJsError (Option OrderBook))
        (opO : Nat → Except ArbJsError (Option Order)),
      isValidSymbol symbol = true → 0 < limit → limit ≤ 100 → 0 < amount →
      mkts.lookup symbol = some mk → mk.active = true →
      (∀ k, ∃ e, opB k = .error e) → (∀ k, ∃ e, opO k = .error e) →
      fetchOrderBook ⟨some exId, some mkts⟩ symbol limit (some cb) now opB =
        none ∧
      executeBuy true ⟨some exId, some mkts⟩ symbol amount (some cb) now opO =
        none ∧
      executeSell true ⟨some exId, some mkts⟩ symbol amount (some cb) now opO =
        none) := by
  refine ⟨?_, ?_, ?_, ?_, ?_, ?_, ?_⟩
  · intro ex symbol limit cb? now op
    constructor
    · intro e h
      unfold fetchOrderBook
      rw [h]
    · intro ob h
      unfold fetchOrderBook
      rw [h]
  · intro et ex symbol amount cb? now op
    constructor
    · intro e h
      unfold executeBuy
      rw [h]
    · intro o h
      unfold executeBuy
      rw [h]
  · intro et ex symbol amount cb? now op
    constructor
    · intro e h
      unfold executeSell
      rw [h]
    · intro o h
      unfold executeSell
      rw [h]
  · intro ex symbol limit amount cb? now et opB opO hsym
    refine ⟨?_, ?_, ?_⟩ <;>
      simp [fetchOrderBook, fetchOrderBookBody, executeBuy, executeSell,
        executeOrderBody, hsym]
  · intro et ex symbol amount cb? now opO hamt
    have hva : isValidAmount amount = false := by
      simp only [isValidAmount, decide_eq_false_iff_not, not_lt]
      exact hamt
    by_cases hsym : isValidSymbol symbol = true
    · constructor <;>
        simp [executeBuy, executeSell, executeOrderBody, hsym, hva]
    · have hsym' : isValidSymbol symbol = false := by
        cases h : isValidSymbol symbol with
        | false => rfl
        | true => exact absurd h hsym
      constructor <;>
        simp [executeBuy, executeSell, executeOrderBody, hsym']
  · intro ex symbol limit amount cb now opB opO hopen hlt
    refine ⟨?_, ?_, ?_⟩
    · obtain ⟨e, he⟩ :=
        fetchOrderBookBody_error_of_blocked ex symbol limit cb now opB hopen hlt
      exact fetchOrderBook_of_body_error ex symbol limit (some cb) now opB e he
    · obtain ⟨e, he⟩ :=
        executeOrderBody_error_of_blocked "buy" ex symbol amount cb now opO
          hopen hlt
      exact executeOrder_of_body_error "buy" true ex symbol amount (some cb)
        now opO e he
    · obtain ⟨e, he⟩ :=
        executeOrderBody_error_of_blocked "sell" ex symbol amount cb now opO
          hopen hlt
      exact executeOrder_of_body_error "sell" true ex symbol amount (some cb)
        now opO e he
  · intro exId mkts mk symbol limit amount cb now opB opO hsym hl1 hl2 hamt
      hlookup hactive hallB hallO
    have hlim : ¬(limit ≤ 0 ∨ 100 < limit) := by
      push_neg
      exact ⟨hl1, hl2⟩
    have hva : isValidAmount amount = true := by
      simp only [isValidAmount, decide_eq_true_eq]
      exact hamt
    have hBbody : fetchOrderBookBody ⟨some exId, some mkts⟩ symbol limit
        (some cb) now opB =
        cbGate cb now
          (withRetry (validatedOrderBookOp opB symbol) fetchRetryOptions).1 := by
      simp [fetchOrderBookBody, hsym, hlim, hlookup]
    have hOBbody : ∀ side, executeOrderBody side true ⟨some exId, some mkts⟩
        symbol amount (some cb) now opO =
        cbGate cb now
          (withRetry (validatedOrderOp opO side) orderRetryOptions).1 := by
      intro side
      simp [executeOrderBody, hsym, hva, hlookup, hactive]
    obtain ⟨eB, heB⟩ := withRetry_error_of_all_error
      (validatedOrderBookOp opB symbol) fetchRetryOptions
      (fun k => by
        obtain ⟨e, he⟩ := hallB k
        exact ⟨e, by simp [validatedOrderBookOp, he]⟩)
    obtain ⟨eBuy, heBuy⟩ := withRetry_error_of_all_error
      (validatedOrderOp opO "buy") orderRetryOptions
      (fun k => by
        obtain ⟨e, he⟩ := hallO k
        exact ⟨e, by simp [validatedOrderOp, he]⟩)
    obtain ⟨eSell, heSell⟩ := withRetry_error_of_all_error
      (validatedOrderOp opO "sell") orderRetryOptions
      (fun k => by
        obtain ⟨e, he⟩ := hallO k
        exact ⟨e, by simp [validatedOrderOp, he]⟩)
    rw [heB] at hBbody
    have hOB := hOBbody "buy"
    have hOS := hOBbody "sell"
    rw [heBuy] at hOB
    rw [heSell] at hOS
    obtain ⟨e2B, he2B⟩ := cbGate_error (A := OrderBook) cb now eB
    obtain ⟨e2Buy, he2Buy⟩ := cbGate_error (A := Order) cb now eBuy
    obtain ⟨e2Sell, he2Sell⟩ := cbGate_error (A := Order) cb now eSell
    rw [he2B] at hBbody
    rw [he2Buy] at hOB
    rw [he2Sell] at hOS
    refine ⟨?_, ?_, ?_⟩
    · exact fetchOrderBook_of_body_error _ symbol limit (some cb) now opB
        e2B hBbody
    · exact executeOrder_of_body_error "buy" true _ symbol amount (some cb)
        now opO e2Buy hOB
    · exact executeOrder_of_body_error "sell" true _ symbol amount (some cb)
        now opO e2Sell hOS

/-- A connected test exchange with one active BTC/USDT market. -/
def testExchange : Exchange :=
  ⟨some "binance", some [("BTC/USDT", ⟨true⟩)]⟩

/-- Witness for C10: an invalid (lower-case) symbol makes all three
operations return `none`. -/
theorem exchange_ops_total_witness :
    fetchOrderBook testExchange "btc" 5 none 0 (fun _ => Except.ok none) =
      none ∧
    executeBuy true testExchange "btc" 5 none 0 (fun _ => Except.ok none) =
      none ∧
    executeSell true testExchange "btc" 5 none 0 (fun _ => Except.ok none) =
      none :=
  exchange_ops_total.2.2.2.1 testExchange "btc" 5 5 none 0 true
    (fun _ => Except.ok none) (fun _ => Except.ok none) (by decide)

end Arb
